import Mathlib

/-!
Shallow embedding of the hotel-data normalization core of this repository:
the price-string parsing of `extractor.py` and the record sanitization of
`sanitize_hotels.py`.

Modelling conventions:
* Python floats are modelled as exact rationals (`Rat`); binary-float
  rounding of the underlying machine representation is not modelled.
* Values that may be `None` are modelled as `Option`.
* Code that can raise an exception is modelled as `Except String`.
* JSON values (the result of `json.loads`) are modelled by the inductive
  type `JVal`, keeping Python's `int` / `float` distinction.
-/

namespace Scrap

/-!
The `Rat` arithmetic operations are `@[irreducible]` in Batteries, which
blocks `decide`-style evaluation of the embedded functions on concrete
inputs; lifting them to the default reducibility restores it (the kernel
is unaffected either way).
-/

/-- JSON values as produced by Python's `json.loads`.  `int` and `float`
are distinguished because Python renders and treats them differently. -/
inductive JVal where
  | jnull
  | jbool (b : Bool)
  | jint (n : Int)
  | jfloat (q : Rat)
  | jstr (s : String)
  | jarr (items : List JVal)
  | jobj (fields : List (String × JVal))

/-- Whitespace characters stripped by Python's `str.strip()` (the ASCII
whitespace set plus the non-breaking space; other Unicode whitespace is
not modelled, none of the data in this pipeline contains it). -/
def pyWsChar (c : Char) : Bool :=
  c = ' ' || c = '\t' || c = '\n' || c = '\r' || c = '\x0b' || c = '\x0c' ||
    c = Char.ofNat 160

/-- Drop leading characters satisfying `p` and trailing ones as well. -/
def trimBy (p : Char → Bool) (cs : List Char) : List Char :=
  ((cs.dropWhile p).reverse.dropWhile p).reverse

/-- Python `str.strip()`. -/
def pyStrip (s : String) : String := String.mk (trimBy pyWsChar s.data)

/-- Python truthiness of a JSON value (`bool(x)`). -/
def pyTruthy : JVal → Bool
  | .jnull => false
  | .jbool b => b
  | .jint n => n ≠ 0
  | .jfloat q => q ≠ 0
  | .jstr s => s ≠ ""
  | .jarr items => !items.isEmpty
  | .jobj fields => !fields.isEmpty

/-- Python `a or b` for an optional string `a` (`None` and `""` are falsy). -/
def strOr (a : Option String) (b : String) : String :=
  match a with
  | some s => if s = "" then b else s
  | none => b

/-- Python `a or b` for optional JSON values (`None` and falsy values fall
through to `b`). -/
def jvalOr (a : Option JVal) (b : Option JVal) : Option JVal :=
  match a with
  | some v => if pyTruthy v then some v else b
  | none => b

/-- Assignment `d[k] = v` on a Python dict modelled as an association list:
an existing key keeps its position and gets the new value, a new key is
appended at the end (Python dicts preserve insertion order). -/
def dictSet (kvs : List (String × JVal)) (k : String) (v : JVal) :
    List (String × JVal) :=
  if kvs.any (fun p => p.1 = k) then
    kvs.map (fun p => if p.1 = k then (k, v) else p)
  else
    kvs ++ [(k, v)]

/-- `d.get(k)` on a Python dict.  The association lists produced by the
JSON parser below have distinct keys (duplicates are merged the way
`json.loads` merges them), so the first match is the value. -/
def objGet (kvs : List (String × JVal)) (k : String) : Option JVal :=
  (kvs.find? (fun p => p.1 = k)).map (fun p => p.2)

/-- `k in d` on a Python dict. -/
def objHas (kvs : List (String × JVal)) (k : String) : Bool :=
  kvs.any (fun p => p.1 = k)

/-! ### Python `float(...)` on strings

`float(s)` strips whitespace and accepts an optional sign, a decimal
mantissa (`d+`, `d+.d*` or `.d+`) and an optional exponent.  The special
forms `inf`/`nan` and digit-group underscores are not modelled; no string
reaching `float` in this pipeline uses them. -/

/-- Numeric value of a list of ASCII digits. -/
def digitsToNat (ds : List Char) : Nat :=
  ds.foldl (fun acc c => acc * 10 + (c.toNat - '0'.toNat)) 0

def pyFloat (s : String) : Option Rat :=
  let cs := (pyStrip s).data
  let (neg, cs) :=
    match cs with
    | '-' :: r => (true, r)
    | '+' :: r => (false, r)
    | _ => (false, cs)
  let ip := cs.takeWhile Char.isDigit
  let r1 := cs.drop ip.length
  let (fp, r2, hasDot) :=
    match r1 with
    | '.' :: r => (r.takeWhile Char.isDigit, r.drop (r.takeWhile Char.isDigit).length, true)
    | _ => ([], r1, false)
  if ip = [] ∧ fp = [] then none
  else
    let mant : Rat := (digitsToNat ip : Rat) + (digitsToNat fp : Rat) / (10 : Rat) ^ fp.length
    let mant := if neg then -mant else mant
    match r2, hasDot with
    | [], _ => some mant
    | 'e' :: r3, _ =>
      match
        (match r3 with
         | '-' :: r4 => some (true, r4)
         | '+' :: r4 => some (false, r4)
         | _ => some (false, r3)) with
      | some (eneg, r4) =>
        let ed := r4.takeWhile Char.isDigit
        if ed = [] ∨ r4.drop ed.length ≠ [] then none
        else
          let e : Int := if eneg then -(digitsToNat ed : Int) else (digitsToNat ed : Int)
          some (mant * (10 : Rat) ^ e)
      | none => none
    | 'E' :: r3, _ =>
      match
        (match r3 with
         | '-' :: r4 => some (true, r4)
         | '+' :: r4 => some (false, r4)
         | _ => some (false, r3)) with
      | some (eneg, r4) =>
        let ed := r4.takeWhile Char.isDigit
        if ed = [] ∨ r4.drop ed.length ≠ [] then none
        else
          let e : Int := if eneg then -(digitsToNat ed : Int) else (digitsToNat ed : Int)
          some (mant * (10 : Rat) ^ e)
      | none => none
    | _, _ => none

/-! ### `json.loads`

A fuel-indexed recursive-descent parser for the JSON grammar accepted by
Python's `json.loads` (strict mode).  The default-enabled `NaN`/`Infinity`
extensions are not modelled; no data in this pipeline uses them.  Object
keys are merged the way Python dicts merge them: an existing key keeps its
position and receives the later value. -/

/-- JSON whitespace (`' '`, `'\t'`, `'\n'`, `'\r'`). -/
def jsonWsChar (c : Char) : Bool :=
  c = ' ' || c = '\t' || c = '\n' || c = '\r'

def skipWs : List Char → List Char
  | [] => []
  | c :: cs => if jsonWsChar c then skipWs cs else c :: cs

def hexDigitVal (c : Char) : Option Nat :=
  if '0' ≤ c ∧ c ≤ '9' then some (c.toNat - '0'.toNat)
  else if 'a' ≤ c ∧ c ≤ 'f' then some (c.toNat - 'a'.toNat + 10)
  else if 'A' ≤ c ∧ c ≤ 'F' then some (c.toNat - 'A'.toNat + 10)
  else none

/-- Body of a JSON string after the opening quote: the decoded characters
and the remaining input after the closing quote.  `\uXXXX` escapes produce
the corresponding character; surrogate-pair recombination is not modelled
(no data in this pipeline contains astral-plane escapes). -/
def escCharFor (e : Char) : Option Char :=
  if e = '"' then some '"'
  else if e = '\\' then some '\\'
  else if e = '/' then some '/'
  else if e = 'b' then some '\x08'
  else if e = 'f' then some '\x0c'
  else if e = 'n' then some '\n'
  else if e = 'r' then some '\r'
  else if e = 't' then some '\t'
  else none

def parseStrBody : List Char → Option (List Char × List Char)
  | [] => none
  | '"' :: rest => some ([], rest)
  | '\\' :: 'u' :: a :: b :: c :: d :: rest =>
    match hexDigitVal a, hexDigitVal b, hexDigitVal c, hexDigitVal d with
    | some va, some vb, some vc, some vd =>
      let code := ((va * 16 + vb) * 16 + vc) * 16 + vd
      (parseStrBody rest).map (fun p => (Char.ofNat code :: p.1, p.2))
    | _, _, _, _ => none
  | '\\' :: e :: rest =>
    match escCharFor e with
    | some c => (parseStrBody rest).map (fun p => (c :: p.1, p.2))
    | none => none
  | c :: rest =>
    if c.toNat < 32 then none
    else (parseStrBody rest).map (fun p => (c :: p.1, p.2))

/-- A JSON number at the head of the input (strict `json.loads` grammar). -/
def parseNum (cs : List Char) : Option (JVal × List Char) :=
  let (neg, cs1) :=
    match cs with
    | '-' :: r => (true, r)
    | _ => (false, cs)
  let ip := cs1.takeWhile Char.isDigit
  if ip = [] then none
  else if ip.length > 1 ∧ ip.head? = some '0' then none
  else
    let r1 := cs1.drop ip.length
    let (fp, r2, hasFrac) :=
      match r1 with
      | '.' :: r => (r.takeWhile Char.isDigit, r.drop (r.takeWhile Char.isDigit).length, true)
      | _ => ([], r1, false)
    if hasFrac ∧ fp = [] then none
    else
      let (expPart, r4) :=
        match r2 with
        | 'e' :: r3 =>
          (match r3 with
           | '-' :: r5 => some (true, r5.takeWhile Char.isDigit, r5.drop (r5.takeWhile Char.isDigit).length)
           | '+' :: r5 => some (false, r5.takeWhile Char.isDigit, r5.drop (r5.takeWhile Char.isDigit).length)
           | _ => some (false, r3.takeWhile Char.isDigit, r3.drop (r3.takeWhile Char.isDigit).length),
           true)
        | 'E' :: r3 =>
          (match r3 with
           | '-' :: r5 => some (true, r5.takeWhile Char.isDigit, r5.drop (r5.takeWhile Char.isDigit).length)
           | '+' :: r5 => some (false, r5.takeWhile Char.isDigit, r5.drop (r5.takeWhile Char.isDigit).length)
           | _ => some (false, r3.takeWhile Char.isDigit, r3.drop (r3.takeWhile Char.isDigit).length),
           true)
        | _ => (none, false)
      match expPart, r4 with
      | some (eneg, ed, rRest), _ =>
        if ed = [] then none
        else
          let e : Int := if eneg then -(digitsToNat ed : Int) else (digitsToNat ed : Int)
          let mant : Rat := (digitsToNat ip : Rat) + (digitsToNat fp : Rat) / (10 : Rat) ^ fp.length
          let v := (if neg then -mant else mant) * (10 : Rat) ^ e
          some (.jfloat v, rRest)
      | none, _ =>
        if hasFrac then
          let mant : Rat := (digitsToNat ip : Rat) + (digitsToNat fp : Rat) / (10 : Rat) ^ fp.length
          some (.jfloat (if neg then -mant else mant), r2)
        else
          let n : Int := if neg then -(digitsToNat ip : Int) else (digitsToNat ip : Int)
          some (.jint n, r2)

/-- Merge parsed object fields the way `json.loads` builds a dict. -/
def mergeFields (kvs : List (String × JVal)) : List (String × JVal) :=
  kvs.foldl (fun acc p => dictSet acc p.1 p.2) []

mutual

def parseVal : Nat → List Char → Option (JVal × List Char)
  | 0, _ => none
  | Nat.succ fuel, cs =>
    let cs := skipWs cs
    match cs with
    | 't' :: 'r' :: 'u' :: 'e' :: r => some (.jbool true, r)
    | 'f' :: 'a' :: 'l' :: 's' :: 'e' :: r => some (.jbool false, r)
    | 'n' :: 'u' :: 'l' :: 'l' :: r => some (.jnull, r)
    | '"' :: r => (parseStrBody r).map (fun p => (.jstr (String.mk p.1), p.2))
    | '[' :: r =>
      match skipWs r with
      | ']' :: r2 => some (.jarr [], r2)
      | r2 => (parseItems fuel r2).map (fun p => (.jarr p.1, p.2))
    | '{' :: r =>
      match skipWs r with
      | '}' :: r2 => some (.jobj [], r2)
      | r2 => (parseFields fuel r2).map (fun p => (.jobj (mergeFields p.1), p.2))
    | _ => parseNum cs

def parseItems : Nat → List Char → Option (List JVal × List Char)
  | 0, _ => none
  | Nat.succ fuel, cs => do
    let (v, r) ← parseVal fuel cs
    match skipWs r with
    | ',' :: r2 => do
      let (vs, r3) ← parseItems fuel r2
      pure (v :: vs, r3)
    | ']' :: r2 => pure ([v], r2)
    | _ => none

def parseFields : Nat → List Char → Option (List (String × JVal) × List Char)
  | 0, _ => none
  | Nat.succ fuel, cs =>
    match skipWs cs with
    | '"' :: r => do
      let (k, r1) ← parseStrBody r
      match skipWs r1 with
      | ':' :: r2 => do
        let (v, r3) ← parseVal fuel r2
        match skipWs r3 with
        | ',' :: r4 => do
          let (kvs, r5) ← parseFields fuel r4
          pure ((String.mk k, v) :: kvs, r5)
        | '}' :: r4 => pure ([(String.mk k, v)], r4)
        | _ => none
      | _ => none
    | _ => none

end

/-- `json.loads`: parse a complete JSON document, requiring the whole
input to be consumed. -/
def jsonLoads (s : String) : Option JVal :=
  match parseVal (s.data.length + 1) s.data with
  | some (v, rest) => if skipWs rest = [] then some v else none
  | none => none

/-- `re.sub(r'""', '"', text)`: replace each non-overlapping doubled
quote, scanning left to right. -/
def fixDoubledQuotes : List Char → List Char
  | '"' :: '"' :: rest => '"' :: fixDoubledQuotes rest
  | c :: rest => c :: fixDoubledQuotes rest
  | [] => []

namespace Sanitize

/-- `_safe_json_loads` of `sanitize_hotels.py`: strip, try to parse, on
failure retry with CSV-style doubled quotes collapsed; all failures give
`None`.  (Callers always pass a string: `row.get(...) or ""`.) -/
def safeJsonLoads (value : String) : Option JVal :=
  let text := pyStrip value
  if text = "" then none
  else
    match jsonLoads text with
    | some v => some v
    | none => jsonLoads (String.mk (fixDoubledQuotes text.data))

end Sanitize

namespace Extractor

/-! ### Price parsing (`extractor.py`)

`PRICE_COMPONENT_PATTERN = re.compile(r"(?P<currency>[^\d\s]+)\s*(?P<amount>[\d.,]+)")`
and the `_to_float` / `_split_price_components` helpers. -/

/-- ASCII decimal digit (`\d` over the data this pipeline handles). -/
def isDigitCh (c : Char) : Bool := '0' ≤ c ∧ c ≤ '9'

/-- `\s` of Python's `re` module (ASCII part; the only non-ASCII
whitespace in the data, `\xa0`, is replaced before the regex runs). -/
def isSpaceCh (c : Char) : Bool :=
  c = ' ' || c = '\t' || c = '\n' || c = '\r' || c = '\x0b' || c = '\x0c'

/-- A character the `currency` group `[^\d\s]+` can match. -/
def isCurrencyCh (c : Char) : Bool := !isDigitCh c && !isSpaceCh c

/-- A character the `amount` group `[\d.,]+` can match. -/
def isAmountCh (c : Char) : Bool := isDigitCh c || c = '.' || c = ','

/-- Backtracking over the length of the greedy `[^\d\s]+` group: try the
longest currency run first, then shorter ones, until `\s*` followed by a
non-empty `[\d.,]+` run matches. -/
def tryCurrencyLen (cs : List Char) : Nat → Option (List Char × List Char)
  | 0 => none
  | Nat.succ n =>
    let clen := Nat.succ n
    let rest := cs.drop clen
    let afterWs := rest.dropWhile isSpaceCh
    let amt := afterWs.takeWhile isAmountCh
    if amt.isEmpty then tryCurrencyLen cs n
    else some (cs.take clen, amt)

/-- Match of `PRICE_COMPONENT_PATTERN` anchored at the head of the input:
`some (currency, amount)` if the pattern matches here. -/
def matchPriceAt (cs : List Char) : Option (List Char × List Char) :=
  let run := cs.takeWhile isCurrencyCh
  if run.isEmpty then none else tryCurrencyLen cs run.length

/-- `PRICE_COMPONENT_PATTERN.search`: the leftmost position where the
pattern matches, with Python's greedy backtracking at that position. -/
def searchPrice : List Char → Option (List Char × List Char)
  | [] => none
  | c :: cs =>
    match matchPriceAt (c :: cs) with
    | some r => some r
    | none => searchPrice cs

/-- `str.rfind`: index of the last occurrence of `c`, `-1` if absent. -/
def rfind (cs : List Char) (c : Char) : Int :=
  match cs with
  | [] => -1
  | a :: rest =>
    let r := rfind rest c
    if r ≥ 0 then r + 1 else if a = c then 0 else -1

/-- `str.isdigit()` (ASCII digits; the strings tested here come from
`[\d.,]+` tokens). -/
def allDigits (cs : List Char) : Bool := !cs.isEmpty && cs.all isDigitCh

/-- The separator-disambiguation step of `_to_float` (lines 127-151 of
`extractor.py`): the inferred `(decimal_sep, thousands_sep)` pair. -/
def sepRoles (cleaned : List Char) : Option Char × Option Char :=
  let lastComma := rfind cleaned ','
  let lastDot := rfind cleaned '.'
  if lastComma ≠ -1 ∧ lastDot ≠ -1 then
    if lastComma > lastDot then (some ',', some '.') else (some '.', some ',')
  else if lastComma ≠ -1 then
    let fractional := cleaned.drop (lastComma.toNat + 1)
    if allDigits fractional ∧ 0 < fractional.length ∧ fractional.length ≤ 2 then
      (some ',', none)
    else (none, some ',')
  else if lastDot ≠ -1 then
    let fractional := cleaned.drop (lastDot.toNat + 1)
    if allDigits fractional ∧ 0 < fractional.length ∧ fractional.length ≤ 2 then
      (some '.', none)
    else (none, some '.')
  else (none, none)

/-- Apply the inferred separator roles (lines 153-159 of `extractor.py`):
remove every thousands separator; rewrite a non-`.` decimal separator to
`.`; with no decimal separator at all, strip both `,` and `.`. -/
def applySeps (roles : Option Char × Option Char) (cleaned : List Char) : List Char :=
  let afterThousands :=
    match roles.2 with
    | some t => cleaned.filter (fun c => c ≠ t)
    | none => cleaned
  match roles.1 with
  | some d => if d ≠ '.' then afterThousands.map (fun c => if c = d then '.' else c)
              else afterThousands
  | none => (afterThousands.filter (fun c => c ≠ ',')).filter (fun c => c ≠ '.')

/-- The cleaning prelude of `_to_float` (lines 121-125 of
`extractor.py`): remove `\xa0`, strip, remove inner spaces. -/
def cleanAmount (amountText : String) : List Char :=
  (pyStrip (String.mk (amountText.data.filter (fun c => c ≠ Char.ofNat 160)))).data.filter
    (fun c => c ≠ ' ')

/-- `_to_float` of `extractor.py`: strip `\xa0` and whitespace, drop
inner spaces, disambiguate `,`/`.` and parse the result as a float. -/
def toFloat (amountText : String) : Option Rat :=
  if pyStrip (String.mk (amountText.data.filter (fun c => c ≠ Char.ofNat 160))) = "" then none
  else
    let cleaned := cleanAmount amountText
    pyFloat (String.mk (applySeps (sepRoles cleaned) cleaned))

/-- `_split_price_components` of `extractor.py`: returns
`(currency, amount_text, amount_value)`. -/
def splitPriceComponents (text : Option String) :
    Option String × Option String × Option Rat :=
  match text with
  | none => (none, none, none)
  | some t =>
    if t = "" then (none, none, none)
    else
      let cleaned := pyStrip (String.mk (t.data.map (fun c => if c = Char.ofNat 160 then ' ' else c)))
      match searchPrice cleaned.data with
      | none => (none, if cleaned = "" then none else some cleaned, none)
      | some (cur, amt) =>
        let currency := let c := pyStrip (String.mk cur); if c = "" then none else some c
        let amountText := let a := pyStrip (String.mk amt); if a = "" then none else some a
        let amountValue :=
          match amountText with
          | some a => toFloat a
          | none => none
        (currency, amountText, amountValue)

end Extractor

/-! ### Generic Python string helpers used by `sanitize_hotels.py` -/

/-- Is `needle` an initial segment of `hay`? -/
def leadsCs : List Char → List Char → Bool
  | [], _ => true
  | _ :: _, [] => false
  | a :: as, b :: bs => a = b && leadsCs as bs

def hasSubCs : List Char → List Char → Bool
  | needle, [] => needle.isEmpty
  | needle, c :: rest => leadsCs needle (c :: rest) || hasSubCs needle rest

/-- Python `needle in hay` on strings. -/
def hasSub (needle hay : String) : Bool := hasSubCs needle.data hay.data

/-- Python `str.lower()` (ASCII case folding; no non-ASCII uppercase
occurs in the keyword matching this is used for). -/
def lowerStr (s : String) : String := String.mk (s.data.map Char.toLower)

/-- Python `str(x)` for a float modelled as an exact rational: exact
decimal rendering with at least one fractional digit.  (Python prints
very large/small floats in exponent form; none of the proved properties
depend on the rendering of such values.) -/
def floatRepr (q : Rat) : String :=
  let sign := if q < 0 then "-" else ""
  let a : Rat := |q|
  match (List.range 41).find? (fun k => (a * (10 : Rat) ^ k).den = 1) with
  | some k =>
    let n := (a * (10 : Rat) ^ k).num.toNat
    if k = 0 then sign ++ toString n ++ ".0"
    else
      let ds := toString n
      let ds := if ds.length ≤ k then String.mk (List.replicate (k + 1 - ds.length) '0') ++ ds
                else ds
      sign ++ ds.take (ds.length - k) ++ "." ++ ds.drop (ds.length - k)
  | none => sign ++ toString a.num ++ "/" ++ toString a.den

/-- Python `str(x)` for the scalar types accepted by the
`isinstance(x, (str, int, float))` guards (`bool` is a subclass of
`int`, so it passes those guards too). -/
def scalarStr : JVal → Option String
  | .jstr s => some s
  | .jint n => some (toString n)
  | .jfloat q => some (floatRepr q)
  | .jbool b => some (if b then "True" else "False")
  | _ => none

mutual

/-- Python `str(x)` on an arbitrary JSON value.  Containers are rendered
bracketed and comma-separated like Python does; the quoting of nested
strings is not reproduced (only the digit runs of the result are ever
used, by the quantity extraction, and those agree). -/
def pyStrAny : JVal → String
  | .jnull => "None"
  | .jbool b => if b then "True" else "False"
  | .jint n => toString n
  | .jfloat q => floatRepr q
  | .jstr s => s
  | .jarr xs => "[" ++ pyStrList xs ++ "]"
  | .jobj kvs => "\x7b" ++ pyStrFields kvs ++ "\x7d"

def pyStrList : List JVal → String
  | [] => ""
  | [x] => pyStrAny x
  | x :: xs => pyStrAny x ++ ", " ++ pyStrList xs

def pyStrFields : List (String × JVal) → String
  | [] => ""
  | [(k, v)] => k ++ ": " ++ pyStrAny v
  | (k, v) :: xs => k ++ ": " ++ pyStrAny v ++ ", " ++ pyStrFields xs

end

/-- `re.search(r"(\d+)", s)` followed by `int(...)`: the first maximal
run of digits, as a number. -/
def firstDigitRun (cs : List Char) : Option Nat :=
  let rest := cs.dropWhile (fun c => !c.isDigit)
  if rest.isEmpty then none else some (digitsToNat (rest.takeWhile Char.isDigit))

namespace Sanitize

/-- `_to_float` of `sanitize_hotels.py`: numbers pass through (`bool` is
an `int` in Python), everything else is stringified, stripped and given
to `float`.  `str()` of `None`, a list or a dict can never parse as a
float, so those cases are `None` directly. -/
def toFloat (value : Option JVal) : Option Rat :=
  match value with
  | none => none
  | some (.jint n) => some (n : Rat)
  | some (.jfloat q) => some q
  | some (.jbool b) => some (if b then 1 else 0)
  | some (.jstr s) =>
    if pyStrip s = "" then none else pyFloat (pyStrip s)
  | some .jnull => none
  | some (.jarr _) => none
  | some (.jobj _) => none

/-- `_to_float` applied to a CSV cell (always a string or absent). -/
def toFloatStr (value : Option String) : Option Rat :=
  toFloat (value.map .jstr)

/-- The scalar-entry cleaning shared by `_clean_services` and the
`highlights` extraction: keep `isinstance(s, (str, int, float))` entries
whose stripped text is non-empty and does not start with "see all"
(case-insensitively), stripped. -/
def cleanEntries (items : List JVal) : List String :=
  items.filterMap (fun s =>
    match scalarStr s with
    | none => none
    | some t =>
      let t := pyStrip t
      if t = "" then none
      else if leadsCs "see all".data (lowerStr t).data then none
      else some t)

/-- `_clean_services` of `sanitize_hotels.py`. -/
def cleanServices (services : Option JVal) : List String :=
  match services with
  | some (.jarr items) => cleanEntries items
  | _ => []

/-- `_derive_category_from_title` of `sanitize_hotels.py`. -/
def deriveCategoryFromTitle (title : String) : String :=
  let lowered := lowerStr title
  if hasSub "apartment" lowered || hasSub "suite" lowered || hasSub "studio" lowered then
    "Apartment"
  else if hasSub "guest house" lowered || hasSub "guesthouse" lowered then "Guesthouse"
  else if hasSub "hostel" lowered then "Hostel"
  else if hasSub "resort" lowered then "Resort"
  else "Hotel"

/-- `_first_or_none` of `sanitize_hotels.py` on a list of strings: the
first truthy element. -/
def firstOrNone (items : List String) : Option String :=
  items.find? (fun x => x ≠ "")

/-- Python `round(x, 2)` on the exact rational value: round half to even
at two decimal places. -/
def halfEvenInt (x : Rat) : Int :=
  let f := x.floor
  let r := x - (f : Rat)
  if r < 1 / 2 then f
  else if 1 / 2 < r then f + 1
  else if f % 2 = 0 then f else f + 1

def round2 (q : Rat) : Rat := ((halfEvenInt (q * 100) : Int) : Rat) / 100

/-- Python `a or b` on optional floats: `None` and `0.0` fall through. -/
def ratOr (a b : Option Rat) : Option Rat :=
  match a with
  | some q => if q = 0 then b else some q
  | none => b

/-- The `infer_type` closure inside `_parse_rooms`. -/
def inferType (name : Option String) : String :=
  match name with
  | none => "Room"
  | some n =>
    if n = "" then "Room"
    else
      let lowered := lowerStr n
      if hasSub "suite" lowered then "Suite"
      else if hasSub "apartment" lowered then "Apartment"
      else if hasSub "studio" lowered then "Studio"
      else if hasSub "king" lowered || hasSub "queen" lowered || hasSub "double" lowered then
        "Standard"
      else "Room"

/-- A sanitized room record (the dict appended by `_parse_rooms`). -/
structure Room where
  type : String
  name : String
  image : String
  price : Rat
  quantity : Nat
  information : String
  gallery : List String
  service : List String
  deriving Repr, DecidableEq

/-- The cleaned own-image list of a raw room
(`item.get("gallery") or item.get("images")`, scalars stringified and
stripped, empties dropped). -/
def cleanRoomImages (kvs : List (String × JVal)) : List String :=
  match jvalOr (objGet kvs "gallery") (objGet kvs "images") with
  | some (.jarr imgs) =>
    imgs.filterMap (fun img =>
      match scalarStr img with
      | some s => let t := pyStrip s; if t = "" then none else some t
      | none => none)
  | _ => []

/-- The quantity derivation from the `availability` options list: the
largest digit run found in any option's `value` or `label`, default 1. -/
def optQuantity (kvs : List (String × JVal)) : Nat :=
  match objGet kvs "availability" with
  | some (.jarr opts) =>
    opts.foldl (fun mx opt =>
      match opt with
      | .jobj okvs =>
        let cands :=
          (if objHas okvs "value" then [pyStrAny ((objGet okvs "value").getD .jnull)] else []) ++
          (if objHas okvs "label" then [pyStrAny ((objGet okvs "label").getD .jnull)] else [])
        cands.foldl (fun m c =>
          match firstDigitRun c.data with
          | some n => max m n
          | none => m) mx
      | _ => mx) 1
  | _ => 1

/-- The image-deduplication choice of `_parse_rooms` (lines 208-231):
the gallery assigned to the current room, given the hotel gallery, the
used-image set so far and the room's own cleaned images.  Unused own
images win; otherwise unused hotel-gallery images; otherwise nothing. -/
def selectGallery (hotelGallery used roomImages : List String) : List String :=
  let availableRoomImages := roomImages.filter (fun img => !used.contains img)
  if !availableRoomImages.isEmpty then availableRoomImages.take 6
  else
    let availableHotelImages := hotelGallery.filter (fun img => !used.contains img)
    if !availableHotelImages.isEmpty then availableHotelImages.take 6
    else []

/-- One iteration of the `for item in rooms_raw` loop of `_parse_rooms`:
`none` when the item is skipped, otherwise the built room together with
the grown used-image set (modelled as a list with membership semantics;
`used_images.update(room_gallery)` is appending the assigned gallery,
which in the nothing-available branch is a no-op). -/
def processItem (hotelGallery : List String) (used : List String) (item : JVal) :
    Option (Room × List String) :=
  match item with
  | .jobj kvs =>
    match objGet kvs "name" with
    | some (.jstr nm) =>
      if pyStrip nm = "" then none
      else
        let description := match objGet kvs "description" with
          | some (.jstr d) => some d
          | _ => none
        let priceAmount := ratOr (toFloat (objGet kvs "price_amount"))
                                 (toFloat (objGet kvs "price"))
        let roomServices := match objGet kvs "highlights" with
          | some (.jarr hs) => (cleanEntries hs).take 6
          | _ => []
        let quantity := optQuantity kvs
        let roomGallery := selectGallery hotelGallery used (cleanRoomImages kvs)
        let roomImage := (roomGallery.head?).getD ""
        some
          ({ type := inferType (some nm)
             name := nm
             image := roomImage
             price := match priceAmount with
                      | some p => round2 p
                      | none => 0
             quantity := quantity
             information := description.getD ""
             gallery := roomGallery
             service := roomServices }, used ++ roomGallery)
    | _ => none
  | _ => none

/-- The keep/skip condition of the `for item in rooms_raw` loop: an item
is kept exactly when it is a dict whose `name` value is a string with
non-blank content (lines 152-158). -/
def keepItem : JVal → Bool
  | .jobj kvs =>
    match objGet kvs "name" with
    | some (.jstr s) => pyStrip s ≠ ""
    | _ => false
  | _ => false

def parseRoomsGo (hotelGallery : List String) (used : List String) :
    List JVal → List Room
  | [] => []
  | item :: rest =>
    match processItem hotelGallery used item with
    | none => parseRoomsGo hotelGallery used rest
    | some (room, used2) => room :: parseRoomsGo hotelGallery used2 rest

/-- `_parse_rooms` of `sanitize_hotels.py`. -/
def parseRooms (roomsRaw : Option JVal) (hotelGallery : List String) : List Room :=
  match roomsRaw with
  | some (.jarr items) => parseRoomsGo hotelGallery [] items
  | _ => []

/-- `_derive_rating_from_services` of `sanitize_hotels.py`. -/
def deriveRatingFromServices (services : List String) : Rat :=
  if services.isEmpty then 4
  else round2 (3.5 + min 1.5 ((services.length : Rat) / 50 * 1.5))

/-- The first branch of `_derive_price`: the numeric
`search_pricing.current_price_amount` when the parsed field is a dict. -/
def spAmount (searchPricing : Option JVal) : Option Rat :=
  match searchPricing with
  | some (.jobj kvs) => toFloat (objGet kvs "current_price_amount")
  | _ => none

/-- The second branch of `_derive_price`: the price of the first room
whose (always present, numeric) price is strictly positive. -/
def firstPositivePrice (rooms : List Room) : Option Rat :=
  (rooms.find? (fun r => 0 < r.price)).map (fun r => r.price)

/-- `_derive_price` of `sanitize_hotels.py`. -/
def derivePrice (searchPricing : Option JVal) (rooms : List Room) : Option Rat :=
  match spAmount searchPricing with
  | some v => some v
  | none => firstPositivePrice rooms

end Sanitize

/-! ### The per-row sanitization of `sanitize_hotels_from_csv` -/

/-- One CSV row as produced by `csv.DictReader`: column name to cell. -/
abbrev Row := List (String × String)

def rowGet (row : Row) (k : String) : Option String :=
  (row.find? (fun p => p.1 = k)).map (fun p => p.2)

/-- A sanitized hotel record (the `hotel_entry` dict). -/
structure Hotel where
  id : String
  title : String
  category : String
  description : String
  image : String
  gallery : List String
  location : String
  city : String
  country : String
  latitude : Rat
  longitude : Rat
  price : Rat
  rating : Rat
  status : String
  service : List String
  distance : Rat
  rooms : List Sanitize.Room
  deriving Repr, DecidableEq

instance {ε α : Type} [DecidableEq ε] [DecidableEq α] : DecidableEq (Except ε α)
  | .error e, .error f =>
    if h : e = f then .isTrue (by rw [h]) else .isFalse (fun hc => h (Except.error.inj hc))
  | .error _, .ok _ => .isFalse (fun hc => Except.noConfusion hc)
  | .ok _, .error _ => .isFalse (fun hc => Except.noConfusion hc)
  | .ok a, .ok b =>
    if h : a = b then .isTrue (by rw [h]) else .isFalse (fun hc => h (Except.ok.inj hc))

/-- Lowercase hex rendering of `n` in exactly four digits. -/
def hex4 (n : Nat) : String :=
  let d := fun k => "0123456789abcdef".data.getD (k % 16) '0'
  String.mk [d (n / 4096), d (n / 256), d (n / 16), d n]

/-- `json.dumps` escaping of one character (`ensure_ascii=True`).
Astral-plane characters become a UTF-16 surrogate pair. -/
def jsonEscChar (c : Char) : String :=
  if c = '"' then String.mk ['\\', '"']
  else if c = '\\' then String.mk ['\\', '\\']
  else if c = '\n' then "\\n"
  else if c = '\t' then "\\t"
  else if c = '\r' then "\\r"
  else if c = '\x08' then "\\b"
  else if c = '\x0c' then "\\f"
  else if c.toNat < 32 then "\\u" ++ hex4 c.toNat
  else if c.toNat < 127 then String.mk [c]
  else if c.toNat < 65536 then "\\u" ++ hex4 c.toNat
  else
    let v := c.toNat - 65536
    "\\u" ++ hex4 (55296 + v / 1024) ++ "\\u" ++ hex4 (56320 + v % 1024)

def jsonDumpStr (s : String) : String :=
  "\"" ++ String.join (s.data.map jsonEscChar) ++ "\""

/-- `json.dumps([a, b])` with Python's default separators. -/
def jsonDumpsPair (a b : String) : String :=
  "[" ++ jsonDumpStr a ++ ", " ++ jsonDumpStr b ++ "]"

/-- `basis = url or title or json.dumps([title, description])`
(line 320 of `sanitize_hotels.py`; the three inputs are already
stripped). -/
def hotelBasis (url title description : String) : String :=
  if url ≠ "" then url
  else if title ≠ "" then title
  else jsonDumpsPair title description

/-- `hid = sha1(basis.encode("utf-8")).hexdigest()[:16]`.  The SHA-1 hex
digest is an external collaborator (`hashlib`), modelled as an arbitrary
function from strings to strings; every property proved below holds for
any such function. -/
def hotelId (hash : String → String) (url title description : String) : String :=
  (hash (hotelBasis url title description)).take 16

namespace Sanitize

/-- `[g for g in (gallery_raw or []) if isinstance(g, str) and g.strip()]`:
Python iteration over the parsed gallery field.  A falsy value is replaced
by `[]` first; then a list yields its items, a string its characters, a
dict its keys — and a truthy number or `True` raises `TypeError`. -/
def galleryItems (galleryRaw : Option JVal) : Except String (List JVal) :=
  let v : Option JVal :=
    match galleryRaw with
    | some j => if pyTruthy j then some j else none
    | none => none
  match v with
  | none => .ok []
  | some (.jarr xs) => .ok xs
  | some (.jstr s) => .ok (s.data.map (fun c => .jstr (String.mk [c])))
  | some (.jobj kvs) => .ok (kvs.map (fun p => .jstr p.1))
  | some _ => .error "TypeError"

/-- The hotel-gallery extraction from the CSV row (line 289-290). -/
def galleryOfRow (row : Row) : Except String (List String) :=
  match galleryItems (safeJsonLoads (strOr (rowGet row "gallery") "")) with
  | .error e => .error e
  | .ok items =>
    .ok (items.filterMap (fun g =>
      match g with
      | .jstr s => if pyStrip s = "" then none else some s
      | _ => none))

/-- The body of the `for row in reader` loop of `sanitize_hotels_from_csv`
once the hotel gallery has been extracted; total. -/
def buildHotel (hash : String → String) (country : String) (row : Row)
    (gallery : List String) : Hotel :=
  let title := pyStrip (strOr (rowGet row "title") "")
  let description := pyStrip (strOr (rowGet row "description") "")
  let url := pyStrip (strOr (rowGet row "url") "")
  let location0 := pyStrip (strOr (rowGet row "location") "")
  let city := pyStrip (strOr (rowGet row "city") "")
  let location := if location0 = "" then city else location0
  let services := cleanServices (safeJsonLoads (strOr (rowGet row "facilities") ""))
  let latitude := toFloatStr (rowGet row "latitude")
  let longitude := toFloatStr (rowGet row "longitude")
  let roomsRaw := safeJsonLoads (strOr (rowGet row "rooms") (strOr (rowGet row "") ""))
  let rooms := parseRooms roomsRaw gallery
  let searchPricing := safeJsonLoads (strOr (rowGet row "search_pricing") "")
  let price := derivePrice searchPricing rooms
  let category := deriveCategoryFromTitle (if title ≠ "" then title else description)
  let image := (firstOrNone gallery).getD ""
  let rating :=
    match toFloatStr (rowGet row "rating") with
    | some csvRating => csvRating / 2
    | none => deriveRatingFromServices services
  { id := hotelId hash url title description
    title := if title = "" then "Untitled" else title
    category := category
    description := if description ≠ "" then description
                   else if title ≠ "" then "Stay at " ++ title else ""
    image := image
    gallery := gallery
    location := location
    city := city
    country := country
    -- `latitude or 0.0` (a 0.0 coordinate is falsy and stays 0.0)
    latitude := latitude.getD 0
    longitude := longitude.getD 0
    price := match price with
             | some p => round2 p
             | none => 0
    rating := rating
    status := "active"
    service := services
    -- `distance_km = None` on this code path, so `distance` is always 0.0
    distance := 0
    rooms := rooms }

/-- One row of `sanitize_hotels_from_csv`: the only fallible step is the
iteration over the parsed `gallery` field. -/
def sanitizeRow (hash : String → String) (country : String) (row : Row) :
    Except String Hotel :=
  match galleryOfRow row with
  | .error e => .error e
  | .ok gallery => .ok (buildHotel hash country row gallery)

/-- The whole `sanitize_hotels_from_csv` loop over the parsed CSV rows. -/
def sanitizeHotelsFromCsv (hash : String → String) (country : String)
    (rows : List Row) : Except String (List Hotel) :=
  rows.mapM (sanitizeRow hash country)

end Sanitize

/-! ### `add_room_services_to_data`

This post-processing step works on the JSON-shaped `data` dict (it may
also be fed an arbitrary JSON file through `add_room_services_to_json`),
so it is modelled on `JVal`.  The two random draws
`count = random.randint(6, min(14, len(DUMMY_ROOM_SERVICES)))` and
`random.sample(DUMMY_ROOM_SERVICES, k=count)` are modelled by an oracle
`samples : Nat → List String` giving the list drawn for the n-th modified
room; the theorems assume of the oracle exactly what `randint`/`sample`
guarantee. -/

def DUMMY_ROOM_SERVICES : List String :=
  ["Toilet",
   "Bathtub or shower",
   "Towels",
   "Linens",
   "Socket near the bed",
   "Tile/Marble floor",
   "TV",
   "Heating",
   "Carpeted",
   "Cable channels",
   "Wake-up service",
   "Upper floors accessible by elevator",
   "Upper floors accessible by stairs only",
   "Clothes rack",
   "Toilet paper",
   "Board games/puzzles",
   "Single-room AC for guest accommodation",
   "Inner courtyard view",
   "Air conditioning",
   "Attached bathroom",
   "Flat-screen TV",
   "Soundproof",
   "Free Wifi",
   "Private bathroom",
   "Hair dryer",
   "Free toiletries",
   "Shampoo",
   "Toiletries",
   "Bathroom"]

/-- `"service" in room and room.get("service")` — the rooms the loop
leaves untouched are exactly those where this holds. -/
def serviceKeep (kvs : List (String × JVal)) : Bool :=
  objHas kvs "service" && pyTruthy ((objGet kvs "service").getD .jnull)

/-- The inner `for room in rooms` loop: `k` counts the rooms modified so
far (it indexes the random oracle).  A non-dict room raises. -/
def updateRoomsJ (samples : Nat → List String) (k : Nat) :
    List JVal → Except String (List JVal × Nat)
  | [] => .ok ([], k)
  | JVal.jobj kvs :: rest =>
    if serviceKeep kvs then
      match updateRoomsJ samples k rest with
      | .ok (rs, k2) => .ok (JVal.jobj kvs :: rs, k2)
      | .error e => .error e
    else
      match updateRoomsJ samples (k + 1) rest with
      | .ok (rs, k2) =>
        .ok (JVal.jobj (dictSet kvs "service" (.jarr ((samples k).map .jstr))) :: rs, k2)
      | .error e => .error e
  | _ :: _ => .error "TypeError"

/-- The outer `for hotel in hotels` loop; a hotel whose `rooms` field is
not a list is skipped, a non-dict hotel raises. -/
def updateHotelsJ (samples : Nat → List String) (k : Nat) :
    List JVal → Except String (List JVal × Nat)
  | [] => .ok ([], k)
  | JVal.jobj hkvs :: rest =>
    match objGet hkvs "rooms" with
    | some (.jarr rooms) =>
      match updateRoomsJ samples k rooms with
      | .ok (rooms2, k2) =>
        match updateHotelsJ samples k2 rest with
        | .ok (hs, k3) =>
          .ok (JVal.jobj (dictSet hkvs "rooms" (.jarr rooms2)) :: hs, k3)
        | .error e => .error e
      | .error e => .error e
    | _ =>
      match updateHotelsJ samples k rest with
      | .ok (hs, k2) => .ok (JVal.jobj hkvs :: hs, k2)
      | .error e => .error e
  | _ :: _ => .error "AttributeError"

/-- `add_room_services_to_data` of `sanitize_hotels.py`. -/
def addRoomServicesToData (samples : Nat → List String) (data : JVal) :
    Except String JVal :=
  match data with
  | .jobj kvs =>
    match objGet kvs "hotels" with
    | some (.jarr hotels) =>
      match updateHotelsJ samples 0 hotels with
      | .ok (hotels2, _) => .ok (.jobj (dictSet kvs "hotels" (.jarr hotels2)))
      | .error e => .error e
    | _ => .ok data
  | _ => .error "AttributeError"

/-- What `random.randint(6, min(14, len(DUMMY_ROOM_SERVICES)))` followed
by `random.sample(DUMMY_ROOM_SERVICES, k=count)` guarantees about one
drawn list. -/
def sampleOk (l : List String) : Prop :=
  6 ≤ l.length ∧ l.length ≤ min 14 DUMMY_ROOM_SERVICES.length ∧ l.Nodup ∧
    ∀ s ∈ l, s ∈ DUMMY_ROOM_SERVICES

/-- How `add_room_services_to_data` relates an input room to its output
room: a room with a present, truthy `service` value is untouched; any
other room only has its `service` key set to a freshly drawn list, every
other key keeping its value. -/
def RoomUpd (room room2 : JVal) : Prop :=
  ∃ kvs, room = .jobj kvs ∧
    ((serviceKeep kvs = true ∧ room2 = room) ∨
     (serviceKeep kvs = false ∧
      ∃ l, sampleOk l ∧
        room2 = .jobj (dictSet kvs "service" (.jarr (l.map .jstr))) ∧
        ∀ k, k ≠ "service" →
          objGet (dictSet kvs "service" (.jarr (l.map .jstr))) k = objGet kvs k))

/-- How `add_room_services_to_data` relates an input hotel to its output
hotel: no rooms list means untouched; otherwise only the rooms list is
rewritten, room by room, by `RoomUpd`. -/
def HotelUpd (hotel hotel2 : JVal) : Prop :=
  ∃ hkvs, hotel = .jobj hkvs ∧
    (((∀ rl, objGet hkvs "rooms" ≠ some (.jarr rl)) ∧ hotel2 = hotel) ∨
     (∃ rl rl2, objGet hkvs "rooms" = some (.jarr rl) ∧ List.Forall₂ RoomUpd rl rl2 ∧
        hotel2 = .jobj (dictSet hkvs "rooms" (.jarr rl2)) ∧
        ∀ k, k ≠ "rooms" → objGet (dictSet hkvs "rooms" (.jarr rl2)) k = objGet hkvs k))

/-- How `add_room_services_to_data` relates its input to its output when
it returns normally. -/
def DataUpd (data data2 : JVal) : Prop :=
  ∃ kvs, data = .jobj kvs ∧
    (((∀ hl, objGet kvs "hotels" ≠ some (.jarr hl)) ∧ data2 = data) ∨
     (∃ hl hl2, objGet kvs "hotels" = some (.jarr hl) ∧ List.Forall₂ HotelUpd hl hl2 ∧
        data2 = .jobj (dictSet kvs "hotels" (.jarr hl2))))

/-! ### Concrete inputs used by counterexamples and witnesses -/

/-- A stand-in for the `hashlib.sha1(...).hexdigest()` collaborator in
concrete evaluations (every theorem about ids holds for any hash). -/
def idHash : String → String := fun s => s ++ "0123456789abcdef0123456789abcdef0123456"

/-- A raw `rooms` JSON value whose single room repeats one image URL. -/
def dupImageRooms : JVal :=
  .jarr [.jobj [("name", .jstr "A"), ("images", .jarr [.jstr "x", .jstr "x"])]]

/-- A CSV row with no `rating` and no `facilities` column. -/
def noRatingRow : Row := [("title", "T")]

/-- A CSV row whose search-pricing amount has three decimal places. -/
def threeDecimalsRow : Row :=
  [("search_pricing", "\x7b\"current_price_amount\": 1.234\x7d")]

/-- A CSV row whose `gallery` cell holds the valid JSON document `3`. -/
def intGalleryRow : Row := [("title", "T"), ("gallery", "3")]

/-- A CSV row with a padded url and a title. -/
def urlTitleRow : Row := [("url", " http://a "), ("title", "T")]

/-- Its sanitized record (under `idHash`). -/
def urlTitleHotel : Hotel :=
  { id := "http://a01234567", title := "T", category := "Hotel",
    description := "Stay at T", image := "", gallery := [], location := "",
    city := "", country := "Georgia", latitude := 0, longitude := 0,
    price := 0, rating := 4, status := "active", service := [],
    distance := 0, rooms := [] }

/-- A CSV row with two facilities and no rating column. -/
def twoFacilitiesRow : Row := [("facilities", "[\"Wifi\", \"Pool\"]")]

/-- Its sanitized record (under `idHash`). -/
def twoFacilitiesHotel : Hotel :=
  { id := "[\"\", \"\"]01234567", title := "Untitled", category := "Hotel",
    description := "", image := "", gallery := [], location := "",
    city := "", country := "Georgia", latitude := 0, longitude := 0,
    price := 0, rating := 89 / 25, status := "active",
    service := ["Wifi", "Pool"], distance := 0, rooms := [] }

/-- A CSV row with a numeric-string search price and one priced room. -/
def searchPricingRow : Row :=
  [("search_pricing", "\x7b\"current_price_amount\": \"99.5\"\x7d"),
   ("rooms", "[\x7b\"name\": \"A\", \"price\": 2.5\x7d]")]

/-- Its sanitized record (under `idHash`). -/
def searchPricingHotel : Hotel :=
  { id := "[\"\", \"\"]01234567", title := "Untitled", category := "Hotel",
    description := "", image := "", gallery := [], location := "",
    city := "", country := "Georgia", latitude := 0, longitude := 0,
    price := 199 / 2, rating := 4, status := "active", service := [],
    distance := 0,
    rooms := [{ type := "Room", name := "A", image := "", price := 5 / 2,
                quantity := 1, information := "", gallery := [], service := [] }] }

/-- A deterministic stand-in for the `random.sample` oracle of
`add_room_services_to_data`: every draw is the first six dummy services. -/
def c10Samples : Nat → List String := fun _ => DUMMY_ROOM_SERVICES.take 6

/-- A parsed data file: one hotel with one service-less room and one room
that already owns a non-empty `service` list. -/
def c10Data : JVal :=
  .jobj [("hotels", .jarr [.jobj [("title", .jstr "T"),
    ("rooms", .jarr [
      .jobj [("name", .jstr "A")],
      .jobj [("name", .jstr "B"), ("service", .jarr [.jstr "Wifi"])]])]])]

/-- Its image under `addRoomServicesToData c10Samples`: room `A` gains the
drawn services, room `B` is untouched. -/
def c10Data2 : JVal :=
  .jobj [("hotels", .jarr [.jobj [("title", .jstr "T"),
    ("rooms", .jarr [
      .jobj [("name", .jstr "A"),
        ("service", .jarr ((DUMMY_ROOM_SERVICES.take 6).map .jstr))],
      .jobj [("name", .jstr "B"), ("service", .jarr [.jstr "Wifi"])]])]])]

/-!
## Theorems

Helper lemmas first, then one theorem (plus witness/counterexample where
applicable) per claim of the specification review.
-/

attribute [local semireducible] Rat.add Rat.mul Rat.sub Rat.inv Rat.ofScientific

theorem halfEvenInt_intCast (n : Int) : Sanitize.halfEvenInt (n : Rat) = n := by
  have hf : (Rat.floor (n : Rat)) = n := by
    rw [Rat.floor_def']
    simp
  simp [Sanitize.halfEvenInt, hf]

theorem round2_idem (q : Rat) : Sanitize.round2 (Sanitize.round2 q) = Sanitize.round2 q := by
  unfold Sanitize.round2
  rw [div_mul_cancel₀ _ (by norm_num : (100 : Rat) ≠ 0), halfEvenInt_intCast]

theorem round2_zero : Sanitize.round2 0 = 0 := by
  have h : ((0 : Int) : Rat) = (0 : Rat) * 100 := by norm_num
  unfold Sanitize.round2
  rw [← h, halfEvenInt_intCast]
  norm_num

theorem selectGallery_not_used {hg used imgs : List String} :
    ∀ u ∈ Sanitize.selectGallery hg used imgs, u ∉ used := by
  intro u hu
  simp only [Sanitize.selectGallery] at hu
  split_ifs at hu with h1 h2
  · have := List.mem_filter.mp (List.take_subset 6 _ hu)
    simpa using this.2
  · have := List.mem_filter.mp (List.take_subset 6 _ hu)
    simpa using this.2
  · simp at hu

/-- Inversion of one kept loop iteration of `_parse_rooms`. -/
theorem processItem_inv {hg used : List String} {item : JVal} {room : Sanitize.Room}
    {used2 : List String}
    (h : Sanitize.processItem hg used item = some (room, used2)) :
    ∃ kvs nm, item = .jobj kvs ∧ objGet kvs "name" = some (.jstr nm) ∧
      pyStrip nm ≠ "" ∧ room.name = nm ∧
      room.gallery = Sanitize.selectGallery hg used (Sanitize.cleanRoomImages kvs) ∧
      used2 = used ++ room.gallery ∧
      Sanitize.round2 room.price = room.price ∧
      room.image = (room.gallery.head?).getD "" := by
  cases item with
  | jobj kvs =>
    rw [Sanitize.processItem] at h
    cases hname : objGet kvs "name" with
    | none => rw [hname] at h; simp at h
    | some v =>
      cases v <;> rw [hname] at h <;> simp at h
      case jstr nm =>
        obtain ⟨hnm, hroom, hused⟩ := h
        refine ⟨kvs, nm, rfl, hname, hnm, ?_, ?_, ?_, ?_, ?_⟩
        · rw [← hroom]
        · rw [← hroom]
        · rw [← hused, ← hroom]
        · rw [← hroom]
          simp only
          cases hpa : Sanitize.ratOr (Sanitize.toFloat (objGet kvs "price_amount"))
              (Sanitize.toFloat (objGet kvs "price")) with
          | none => simp [hpa, round2_zero]
          | some p => simp [hpa, round2_idem]
        · rw [← hroom]
  | jnull => simp [Sanitize.processItem] at h
  | jbool b => simp [Sanitize.processItem] at h
  | jint n => simp [Sanitize.processItem] at h
  | jfloat q => simp [Sanitize.processItem] at h
  | jstr s => simp [Sanitize.processItem] at h
  | jarr xs => simp [Sanitize.processItem] at h

/-- Everything in the used-image set stays out of all later galleries. -/
theorem parseRoomsGo_avoids_used {hg : List String} :
    ∀ (items : List JVal) (used : List String),
      ∀ r ∈ Sanitize.parseRoomsGo hg used items, ∀ u ∈ used, u ∉ r.gallery := by
  intro items
  induction items with
  | nil => intro used r hr; simp [Sanitize.parseRoomsGo] at hr
  | cons item rest ih =>
    intro used r hr u hu
    rw [Sanitize.parseRoomsGo] at hr
    cases hpi : Sanitize.processItem hg used item with
    | none => rw [hpi] at hr; exact ih used r hr u hu
    | some pair =>
      obtain ⟨room, used2⟩ := pair
      rw [hpi] at hr
      obtain ⟨kvs, nm, _, _, _, _, hgal, hused2, _, _⟩ := processItem_inv hpi
      rcases List.mem_cons.mp hr with hEq | hMem
      · subst hEq
        intro hmem
        rw [hgal] at hmem
        exact selectGallery_not_used u hmem hu
      · exact ih used2 r hMem u (by rw [hused2]; exact List.mem_append_left _ hu)

/-- Cross-room uniqueness: within one run of `_parse_rooms`, a URL in
one room's gallery never appears in a later room's gallery. -/
theorem parseRoomsGo_pairwise {hg : List String} :
    ∀ (items : List JVal) (used : List String),
      (Sanitize.parseRoomsGo hg used items).Pairwise
        (fun a b => ∀ u ∈ a.gallery, u ∉ b.gallery) := by
  intro items
  induction items with
  | nil => intro used; simp [Sanitize.parseRoomsGo]
  | cons item rest ih =>
    intro used
    rw [Sanitize.parseRoomsGo]
    cases hpi : Sanitize.processItem hg used item with
    | none => exact ih used
    | some pair =>
      obtain ⟨room, used2⟩ := pair
      refine List.Pairwise.cons ?_ (ih used2)
      intro b hb u hu
      obtain ⟨kvs, nm, _, _, _, _, hgal, hused2, _, _⟩ := processItem_inv hpi
      refine parseRoomsGo_avoids_used rest used2 b hb u ?_
      rw [hused2]
      exact List.mem_append_right _ hu

/-- C2 counterexample: when a room's raw image list repeats a URL, the
repeat survives into that room's gallery, so the union of all galleries
of the sanitized hotel contains a duplicate URL. -/
theorem c2_counterexample :
    ¬ ((Sanitize.parseRooms (some dupImageRooms) []).flatMap Sanitize.Room.gallery).Nodup := by
  decide

/-- C2 (amended): across distinct rooms galleries never share a URL — a
URL assigned to one room is never reused by any later room; only a single
room's own gallery can repeat a URL (when its raw image list does). -/
theorem c2_cross_room_unique (roomsRaw : Option JVal) (hotelGallery : List String) :
    (Sanitize.parseRooms roomsRaw hotelGallery).Pairwise
      (fun a b => ∀ u ∈ a.gallery, u ∉ b.gallery) := by
  unfold Sanitize.parseRooms
  cases roomsRaw with
  | none => simp
  | some v =>
    cases v with
    | jarr items => exact parseRoomsGo_pairwise items []
    | jnull => simp
    | jbool b => simp
    | jint n => simp
    | jfloat q => simp
    | jstr s => simp
    | jobj kvs => simp

/-- C5 counterexample: `parse("1234")` does not produce amount_value
`1234.0`; the pattern needs a currency token, so no numeric token is
found at all. -/
theorem c5_counterexample :
    ¬ ((Extractor.splitPriceComponents (some "1234")).1 = none ∧
       (Extractor.splitPriceComponents (some "1234")).2.2 = some (1234 : Rat)) := by
  decide

/-- C5 (amended): `parse("1234")` returns currency null, amount_text
`"1234"` (the trimmed input preserved for display) and amount_value null,
because the pattern requires a currency token before the number. -/
theorem c5_no_currency_token :
    Extractor.splitPriceComponents (some "1234") = (none, some "1234", none) := by
  decide

/-- C9: the error-handling contract has a hole.  A row whose `gallery`
cell is the well-formed JSON document `3` (a truthy non-iterable) makes
the gallery comprehension raise `TypeError`, so sanitization does not
produce a record for that row; the other embedded JSON fields are
guarded by `isinstance` checks, only the gallery iteration is not. -/
theorem c9_gallery_type_error :
    Sanitize.sanitizeRow idHash "Georgia" intGalleryRow = .error "TypeError" := by
  decide

/-- C6 counterexample: with no usable rating column and zero cleaned
facilities the code returns the hard-coded `4.0`, while the claimed
formula gives `3.5` at serviceCount 0. -/
theorem c6_counterexample :
    (Sanitize.sanitizeRow idHash "Georgia" noRatingRow).map Hotel.rating =
        .ok 4 ∧
      Sanitize.round2 (3.5 + min 1.5 ((0 : Rat) / 50 * 1.5)) = 3.5 ∧
      (4 : Rat) ≠ 3.5 := by
  refine ⟨by decide, by decide, by norm_num⟩

set_option maxRecDepth 40000 in
/-- C7 counterexample: the sanitized price is the 2-decimal rounding of
`search_pricing.current_price_amount`, not that amount itself: an amount
of `1.234` is stored as `1.23`. -/
theorem c7_counterexample :
    Sanitize.spAmount
        (Sanitize.safeJsonLoads (strOr (rowGet threeDecimalsRow "search_pricing") "")) =
        some 1.234 ∧
      (Sanitize.sanitizeRow idHash "Georgia" threeDecimalsRow).map Hotel.price =
        .ok 1.23 ∧
      (1.23 : Rat) ≠ 1.234 := by
  refine ⟨by decide, by decide, by norm_num⟩

/-- An item the loop skips produces nothing and leaves the state alone. -/
theorem processItem_eq_none {hg used : List String} {item : JVal}
    (h : Sanitize.keepItem item = false) :
    Sanitize.processItem hg used item = none := by
  cases item with
  | jobj kvs =>
    rw [Sanitize.keepItem] at h
    rw [Sanitize.processItem]
    cases hname : objGet kvs "name" with
    | none => rfl
    | some v => cases v <;> first | rfl | simp_all
  | jnull => rfl
  | jbool b => rfl
  | jint n => rfl
  | jfloat q => rfl
  | jstr s => rfl
  | jarr xs => rfl

/-- An item the loop keeps always yields a room. -/
theorem processItem_eq_some {hg used : List String} {item : JVal}
    (h : Sanitize.keepItem item = true) :
    ∃ pair, Sanitize.processItem hg used item = some pair := by
  cases item with
  | jobj kvs =>
    rw [Sanitize.keepItem] at h
    rw [Sanitize.processItem]
    cases hname : objGet kvs "name" with
    | none => simp [hname] at h
    | some v => cases v <;> simp_all [hname]
  | jnull => simp [Sanitize.keepItem] at h
  | jbool b => simp [Sanitize.keepItem] at h
  | jint n => simp [Sanitize.keepItem] at h
  | jfloat q => simp [Sanitize.keepItem] at h
  | jstr s => simp [Sanitize.keepItem] at h
  | jarr xs => simp [Sanitize.keepItem] at h

/-- Dropping the skipped items from the raw list changes nothing. -/
theorem parseRoomsGo_filter {hg : List String} :
    ∀ (items : List JVal) (used : List String),
      Sanitize.parseRoomsGo hg used items =
        Sanitize.parseRoomsGo hg used (items.filter Sanitize.keepItem) := by
  intro items
  induction items with
  | nil => intro used; rfl
  | cons item rest ih =>
    intro used
    by_cases hk : Sanitize.keepItem item = true
    · rw [List.filter_cons_of_pos hk]
      obtain ⟨pair, hpair⟩ := @processItem_eq_some hg used item hk
      obtain ⟨room, used2⟩ := pair
      rw [Sanitize.parseRoomsGo, Sanitize.parseRoomsGo, hpair]
      dsimp only
      rw [ih used2]
    · rw [List.filter_cons_of_neg hk]
      rw [Sanitize.parseRoomsGo, processItem_eq_none (Bool.eq_false_iff.mpr hk)]
      exact ih used
/-- Every produced room keeps the non-blank name that let it through. -/
theorem parseRoomsGo_name_not_blank {hg : List String} :
    ∀ (items : List JVal) (used : List String),
      ∀ r ∈ Sanitize.parseRoomsGo hg used items, pyStrip r.name ≠ "" := by
  intro items
  induction items with
  | nil => intro used r hr; simp [Sanitize.parseRoomsGo] at hr
  | cons item rest ih =>
    intro used r hr
    rw [Sanitize.parseRoomsGo] at hr
    cases hpi : Sanitize.processItem hg used item with
    | none => rw [hpi] at hr; exact ih used r hr
    | some pair =>
      obtain ⟨room, used2⟩ := pair
      rw [hpi] at hr
      rcases List.mem_cons.mp hr with hEq | hMem
      · subst hEq
        obtain ⟨kvs, nm, _, _, hnm, hname, _, _, _, _⟩ := processItem_inv hpi
        rw [hname]; exact hnm
      · exact ih used2 r hMem

/-- C8: a raw room entry whose `name` is missing, not a string, or
blank never yields a room — filtering those entries away first changes
nothing — and every produced room has a name with non-blank content (in
particular a non-empty name). -/
theorem c8_unnamed_rooms_dropped (roomsRaw : Option JVal) (hotelGallery : List String) :
    (∀ items, roomsRaw = some (.jarr items) →
      Sanitize.parseRooms roomsRaw hotelGallery =
        Sanitize.parseRooms (some (.jarr (items.filter Sanitize.keepItem))) hotelGallery) ∧
    ∀ r ∈ Sanitize.parseRooms roomsRaw hotelGallery, pyStrip r.name ≠ "" ∧ r.name ≠ "" := by
  constructor
  · intro items hitems
    subst hitems
    exact parseRoomsGo_filter items []
  · intro r hr
    unfold Sanitize.parseRooms at hr
    cases roomsRaw with
    | none => simp at hr
    | some v =>
      cases v with
      | jarr items =>
        have h1 := parseRoomsGo_name_not_blank items [] r hr
        refine ⟨h1, fun hc => h1 ?_⟩
        rw [hc]; rfl
      | jnull => simp at hr
      | jbool b => simp at hr
      | jint n => simp at hr
      | jfloat q => simp at hr
      | jstr s => simp at hr
      | jobj kvs => simp at hr

/-- C8 witness: on a concrete list with one named room, one nameless
price variant and one blank name, only the named room survives. -/
theorem c8_witness :
    (Sanitize.parseRooms
        (some (.jarr [.jobj [("name", .jstr "Twin Room")],
                      .jobj [("price", .jfloat 5)],
                      .jobj [("name", .jstr "  ")]])) [] =
      Sanitize.parseRooms
        (some (.jarr ([.jobj [("name", .jstr "Twin Room")],
                       .jobj [("price", .jfloat 5)],
                       .jobj [("name", .jstr "  ")]].filter Sanitize.keepItem))) []) ∧
    ∀ r ∈ Sanitize.parseRooms
        (some (.jarr [.jobj [("name", .jstr "Twin Room")],
                      .jobj [("price", .jfloat 5)],
                      .jobj [("name", .jstr "  ")]])) [],
      pyStrip r.name ≠ "" ∧ r.name ≠ "" :=
  ⟨(c8_unnamed_rooms_dropped _ _).1 _ rfl, (c8_unnamed_rooms_dropped _ _).2⟩

/-- When every own image of the room is already used, the selection
falls back to the unused hotel-gallery images. -/
theorem selectGallery_all_used {hg used imgs : List String}
    (hall : ∀ img ∈ imgs, img ∈ used) :
    Sanitize.selectGallery hg used imgs =
      (hg.filter (fun i => !used.contains i)).take 6 := by
  have hnil : imgs.filter (fun img => !used.contains img) = [] := by
    rw [List.filter_eq_nil_iff]
    intro a ha
    simp [hall a ha]
  rw [Sanitize.selectGallery]
  simp only [hnil]
  by_cases hav : (hg.filter (fun i => !used.contains i)).isEmpty
  · rw [List.isEmpty_iff] at hav
    simp [hav]
  · simp [hav]

/-- C3: a sanitized room whose own (cleaned) image list is empty or
entirely contained in the already-used set receives as gallery the first
up-to-6 hotel-gallery images not yet used, in hotel-gallery order; its
cover image is the first of those, those images are marked used, and
when no unused hotel image remains the gallery is empty and the cover
image is `""`. -/
theorem c3_hotel_gallery_fallback {hg used : List String} {kvs : List (String × JVal)}
    {room : Sanitize.Room} {used2 : List String}
    (h : Sanitize.processItem hg used (.jobj kvs) = some (room, used2))
    (hall : ∀ img ∈ Sanitize.cleanRoomImages kvs, img ∈ used) :
    room.gallery = (hg.filter (fun i => !used.contains i)).take 6 ∧
    room.image = ((hg.filter (fun i => !used.contains i)).take 6).head?.getD "" ∧
    used2 = used ++ room.gallery ∧
    (hg.filter (fun i => !used.contains i) = [] → room.gallery = [] ∧ room.image = "") := by
  obtain ⟨kvs2, nm, hkvs, _, _, _, hgal, hused2, _, himg⟩ := processItem_inv h
  have hkvs2 : kvs2 = kvs := by
    injection hkvs with h2
    exact h2.symm
  subst hkvs2
  have hsel := @selectGallery_all_used hg used _ hall
  refine ⟨hgal.trans hsel, ?_, hused2, ?_⟩
  · rw [himg, hgal, hsel]
  · intro hempty
    have hg0 : room.gallery = [] := by rw [hgal, hsel, hempty]; rfl
    exact ⟨hg0, by rw [himg, hg0]; rfl⟩

/-- C3 witness: a room whose only image is already used falls back to
the two unused hotel images, which become used. -/
theorem c3_witness :
    ({ type := "Room", name := "A", image := "h1", price := 0, quantity := 1,
       information := "", gallery := ["h1", "h2"], service := [] } : Sanitize.Room).gallery =
        ((["h1", "h2"].filter (fun i => !(["x"].contains i))).take 6) ∧
    ({ type := "Room", name := "A", image := "h1", price := 0, quantity := 1,
       information := "", gallery := ["h1", "h2"], service := [] } : Sanitize.Room).image =
        (((["h1", "h2"].filter (fun i => !(["x"].contains i))).take 6).head?.getD "") ∧
    ["x", "h1", "h2"] = ["x"] ++
      ({ type := "Room", name := "A", image := "h1", price := 0, quantity := 1,
         information := "", gallery := ["h1", "h2"], service := [] } : Sanitize.Room).gallery ∧
    (["h1", "h2"].filter (fun i => !(["x"].contains i)) = [] →
      ({ type := "Room", name := "A", image := "h1", price := 0, quantity := 1,
         information := "", gallery := ["h1", "h2"], service := [] } : Sanitize.Room).gallery = [] ∧
      ({ type := "Room", name := "A", image := "h1", price := 0, quantity := 1,
         information := "", gallery := ["h1", "h2"], service := [] } : Sanitize.Room).image = "") :=
  @c3_hotel_gallery_fallback ["h1", "h2"] ["x"]
    [("name", JVal.jstr "A"), ("images", JVal.jarr [JVal.jstr "x"])]
    { type := "Room", name := "A", image := "h1", price := 0, quantity := 1,
      information := "", gallery := ["h1", "h2"], service := [] }
    ["x", "h1", "h2"]
    (by decide) (by decide)

/-- A successful `sanitizeRow` is `buildHotel` on the extracted gallery. -/
theorem sanitizeRow_ok {hash : String → String} {country : String} {row : Row} {h : Hotel}
    (hok : Sanitize.sanitizeRow hash country row = .ok h) :
    ∃ gallery, Sanitize.galleryOfRow row = .ok gallery ∧
      h = Sanitize.buildHotel hash country row gallery := by
  unfold Sanitize.sanitizeRow at hok
  cases hgal : Sanitize.galleryOfRow row with
  | error e => rw [hgal] at hok; exact Except.noConfusion hok
  | ok g => rw [hgal] at hok; exact ⟨g, rfl, (Except.ok.inj hok).symm⟩

theorem buildHotel_id (hash : String → String) (country : String) (row : Row)
    (gallery : List String) :
    (Sanitize.buildHotel hash country row gallery).id =
      hotelId hash (pyStrip (strOr (rowGet row "url") ""))
        (pyStrip (strOr (rowGet row "title") ""))
        (pyStrip (strOr (rowGet row "description") "")) := by
  simp only [Sanitize.buildHotel]

theorem buildHotel_service (hash : String → String) (country : String) (row : Row)
    (gallery : List String) :
    (Sanitize.buildHotel hash country row gallery).service =
      Sanitize.cleanServices (Sanitize.safeJsonLoads (strOr (rowGet row "facilities") "")) := by
  simp only [Sanitize.buildHotel]

theorem buildHotel_rating (hash : String → String) (country : String) (row : Row)
    (gallery : List String) :
    (Sanitize.buildHotel hash country row gallery).rating =
      match Sanitize.toFloatStr (rowGet row "rating") with
      | some csvRating => csvRating / 2
      | none =>
        Sanitize.deriveRatingFromServices
          (Sanitize.cleanServices (Sanitize.safeJsonLoads (strOr (rowGet row "facilities") ""))) := by
  simp only [Sanitize.buildHotel]

theorem buildHotel_rooms (hash : String → String) (country : String) (row : Row)
    (gallery : List String) :
    (Sanitize.buildHotel hash country row gallery).rooms =
      Sanitize.parseRooms
        (Sanitize.safeJsonLoads (strOr (rowGet row "rooms") (strOr (rowGet row "") "")))
        gallery := by
  simp only [Sanitize.buildHotel]

theorem buildHotel_price (hash : String → String) (country : String) (row : Row)
    (gallery : List String) :
    (Sanitize.buildHotel hash country row gallery).price =
      match Sanitize.derivePrice
          (Sanitize.safeJsonLoads (strOr (rowGet row "search_pricing") ""))
          ((Sanitize.buildHotel hash country row gallery).rooms) with
      | some p => Sanitize.round2 p
      | none => 0 := by
  simp only [Sanitize.buildHotel]

/-- C4: the sanitized id is the 16-character prefix of the digest of the
url, of the title when the url is empty, or of `json.dumps([title,
description])` when both are empty — a pure function of the stripped
`(url, title, description)` fields, so the same raw input always gets
the same id. -/
theorem c4_id_deterministic (hash : String → String) (country : String) (row : Row)
    (h h2 : Hotel) (u t d : String) :
    (Sanitize.sanitizeRow hash country row = .ok h →
      h.id = hotelId hash (pyStrip (strOr (rowGet row "url") ""))
        (pyStrip (strOr (rowGet row "title") ""))
        (pyStrip (strOr (rowGet row "description") ""))) ∧
    (Sanitize.sanitizeRow hash country row = .ok h →
      Sanitize.sanitizeRow hash country row = .ok h2 → h.id = h2.id) ∧
    (u ≠ "" → hotelId hash u t d = (hash u).take 16) ∧
    (u = "" → t ≠ "" → hotelId hash u t d = (hash t).take 16) ∧
    (u = "" → t = "" → hotelId hash u t d = (hash (jsonDumpsPair t d)).take 16) := by
  refine ⟨?_, ?_, ?_, ?_, ?_⟩
  · intro hok
    obtain ⟨g, _, hh⟩ := sanitizeRow_ok hok
    rw [hh, buildHotel_id]
  · intro hok hok2
    rw [hok] at hok2
    rw [Except.ok.inj hok2]
  · intro hu
    rw [hotelId, hotelBasis, if_pos hu]
  · intro hu ht
    rw [hotelId, hotelBasis, if_neg (by simp [hu]), if_pos ht]
  · intro hu ht
    rw [hotelId, hotelBasis, if_neg (by simp [hu]), if_neg (by simp [ht])]

set_option maxRecDepth 40000 in
/-- C4 witness: a concrete row with a url gets `hash(url)[:16]`, and
sanitizing it twice gives the same id. -/
theorem c4_witness :
    Sanitize.sanitizeRow idHash "Georgia" urlTitleRow = .ok urlTitleHotel ∧
    urlTitleHotel.id =
      hotelId idHash (pyStrip (strOr (rowGet urlTitleRow "url") ""))
        (pyStrip (strOr (rowGet urlTitleRow "title") ""))
        (pyStrip (strOr (rowGet urlTitleRow "description") "")) ∧
    urlTitleHotel.id = urlTitleHotel.id ∧
    ("http://a" ≠ "" → hotelId idHash "http://a" "T" "" = (idHash "http://a").take 16) := by
  have hok : Sanitize.sanitizeRow idHash "Georgia" urlTitleRow = .ok urlTitleHotel := by
    decide
  exact ⟨hok,
    (c4_id_deterministic idHash "Georgia" urlTitleRow urlTitleHotel urlTitleHotel
      "http://a" "T" "").1 hok,
    (c4_id_deterministic idHash "Georgia" urlTitleRow urlTitleHotel urlTitleHotel
      "http://a" "T" "").2.1 hok hok,
    fun hu => (c4_id_deterministic idHash "Georgia" urlTitleRow urlTitleHotel urlTitleHotel
      "http://a" "T" "").2.2.1 hu⟩

/-- The two branches of `_derive_rating_from_services`. -/
theorem deriveRating_cases (l : List String) :
    (l ≠ [] → Sanitize.deriveRatingFromServices l =
      Sanitize.round2 (3.5 + min 1.5 ((l.length : Rat) / 50 * 1.5))) ∧
    (l = [] → Sanitize.deriveRatingFromServices l = 4) := by
  cases l <;> simp [Sanitize.deriveRatingFromServices]

/-- C6 (amended): when the rating column is absent or non-numeric the
sanitized rating is `_derive_rating_from_services` of the cleaned
facilities: the claimed `round(3.5 + min(1.5, count/50*1.5), 2)` formula
for a positive facility count, but the hard-coded `4.0` when the count
is zero. -/
theorem c6_rating_from_service_count (hash : String → String) (country : String)
    (row : Row) (h : Hotel)
    (hok : Sanitize.sanitizeRow hash country row = .ok h)
    (hnum : Sanitize.toFloatStr (rowGet row "rating") = none) :
    h.rating = Sanitize.deriveRatingFromServices h.service ∧
    (h.service ≠ [] →
      h.rating = Sanitize.round2 (3.5 + min 1.5 ((h.service.length : Rat) / 50 * 1.5))) ∧
    (h.service = [] → h.rating = 4) := by
  obtain ⟨g, _, hh⟩ := sanitizeRow_ok hok
  subst hh
  have hr := buildHotel_rating hash country row g
  rw [hnum] at hr
  have hs := buildHotel_service hash country row g
  have hmain : (Sanitize.buildHotel hash country row g).rating =
      Sanitize.deriveRatingFromServices (Sanitize.buildHotel hash country row g).service := by
    rw [hr, hs]
  refine ⟨hmain, ?_, ?_⟩
  · intro hne
    rw [hmain]
    exact (deriveRating_cases _).1 hne
  · intro he
    rw [hmain]
    exact (deriveRating_cases _).2 he

set_option maxRecDepth 40000 in
/-- C6 witness: two facilities and no rating column give
`round(3.5 + (2/50)*1.5, 2) = 3.56`. -/
theorem c6_witness :
    Sanitize.toFloatStr (rowGet twoFacilitiesRow "rating") = none ∧
    Sanitize.sanitizeRow idHash "Georgia" twoFacilitiesRow = .ok twoFacilitiesHotel ∧
    twoFacilitiesHotel.rating =
      Sanitize.deriveRatingFromServices twoFacilitiesHotel.service ∧
    (twoFacilitiesHotel.service ≠ [] →
      twoFacilitiesHotel.rating =
        Sanitize.round2 (3.5 + min 1.5 ((twoFacilitiesHotel.service.length : Rat) / 50 * 1.5))) := by
  have hok : Sanitize.sanitizeRow idHash "Georgia" twoFacilitiesRow = .ok twoFacilitiesHotel := by
    decide
  have hc := c6_rating_from_service_count idHash "Georgia" twoFacilitiesRow
    twoFacilitiesHotel hok rfl
  exact ⟨rfl, hok, hc.1, hc.2.1⟩

/-- Every produced room price is a fixed point of `round(., 2)` (it is
either `round(x, 2)` or the default `0.0`). -/
theorem parseRoomsGo_price_shape {hg : List String} :
    ∀ (items : List JVal) (used : List String),
      ∀ r ∈ Sanitize.parseRoomsGo hg used items, Sanitize.round2 r.price = r.price := by
  intro items
  induction items with
  | nil => intro used r hr; simp [Sanitize.parseRoomsGo] at hr
  | cons item rest ih =>
    intro used r hr
    rw [Sanitize.parseRoomsGo] at hr
    cases hpi : Sanitize.processItem hg used item with
    | none => rw [hpi] at hr; exact ih used r hr
    | some pair =>
      obtain ⟨room, used2⟩ := pair
      rw [hpi] at hr
      rcases List.mem_cons.mp hr with hEq | hMem
      · subst hEq
        obtain ⟨_, _, _, _, _, _, _, _, hprice, _⟩ := processItem_inv hpi
        exact hprice
      · exact ih used2 r hMem

theorem parseRooms_price_shape (roomsRaw : Option JVal) (hg : List String) :
    ∀ r ∈ Sanitize.parseRooms roomsRaw hg, Sanitize.round2 r.price = r.price := by
  intro r hr
  unfold Sanitize.parseRooms at hr
  cases roomsRaw with
  | none => simp at hr
  | some v =>
    cases v with
    | jarr items => exact parseRoomsGo_price_shape items [] r hr
    | jnull => simp at hr
    | jbool b => simp at hr
    | jint n => simp at hr
    | jfloat q => simp at hr
    | jstr s => simp at hr
    | jobj kvs => simp at hr

/-- C7 (amended): the sanitized price is the 2-decimal rounding of
`search_pricing.current_price_amount` when that parses to a number;
otherwise the first room price strictly greater than 0 in room order
(already 2-decimal, so returned as is); otherwise `0.0`. -/
theorem c7_price_derivation (hash : String → String) (country : String)
    (row : Row) (h : Hotel)
    (hok : Sanitize.sanitizeRow hash country row = .ok h) :
    (∀ q, Sanitize.spAmount
        (Sanitize.safeJsonLoads (strOr (rowGet row "search_pricing") "")) = some q →
      h.price = Sanitize.round2 q) ∧
    (Sanitize.spAmount
        (Sanitize.safeJsonLoads (strOr (rowGet row "search_pricing") "")) = none →
      ∀ p, Sanitize.firstPositivePrice h.rooms = some p → h.price = p) ∧
    (Sanitize.spAmount
        (Sanitize.safeJsonLoads (strOr (rowGet row "search_pricing") "")) = none →
      Sanitize.firstPositivePrice h.rooms = none → h.price = 0) := by
  obtain ⟨g, _, hh⟩ := sanitizeRow_ok hok
  subst hh
  have hp := buildHotel_price hash country row g
  refine ⟨?_, ?_, ?_⟩
  · intro q hq
    rw [hp, Sanitize.derivePrice, hq]
  · intro hnone p hfp
    rw [hp, Sanitize.derivePrice, hnone]
    simp only [hfp]
    obtain ⟨r, hr, hpr⟩ : ∃ r,
        (Sanitize.buildHotel hash country row g).rooms.find?
          (fun r => decide (0 < r.price)) = some r ∧ r.price = p := by
      unfold Sanitize.firstPositivePrice at hfp
      cases hfind : (Sanitize.buildHotel hash country row g).rooms.find?
          (fun r => decide (0 < r.price)) with
      | none => rw [hfind] at hfp; simp at hfp
      | some r => rw [hfind] at hfp; exact ⟨r, rfl, Option.some.inj hfp⟩
    have hmem := List.mem_of_find?_eq_some hr
    rw [buildHotel_rooms] at hmem
    rw [← hpr]
    exact parseRooms_price_shape _ _ r hmem
  · intro hnone hfpn
    rw [hp, Sanitize.derivePrice, hnone, hfpn]

set_option maxRecDepth 40000 in
/-- C7 witness: a numeric-string search price of `"99.5"` wins over the
room price and is stored as `99.5`. -/
theorem c7_witness :
    Sanitize.sanitizeRow idHash "Georgia" searchPricingRow = .ok searchPricingHotel ∧
    Sanitize.spAmount
      (Sanitize.safeJsonLoads (strOr (rowGet searchPricingRow "search_pricing") "")) =
        some (199 / 2) ∧
    searchPricingHotel.price = Sanitize.round2 (199 / 2) := by
  have hok : Sanitize.sanitizeRow idHash "Georgia" searchPricingRow = .ok searchPricingHotel := by
    decide
  have hsp : Sanitize.spAmount
      (Sanitize.safeJsonLoads (strOr (rowGet searchPricingRow "search_pricing") "")) =
        some (199 / 2) := by
    decide
  exact ⟨hok, hsp,
    (c7_price_derivation idHash "Georgia" searchPricingRow searchPricingHotel hok).1
      (199 / 2) hsp⟩

theorem rfind_ge_neg_one (cs : List Char) (c : Char) : Extractor.rfind cs c ≥ -1 := by
  induction cs with
  | nil => simp [Extractor.rfind]
  | cons a rest ih =>
    rw [Extractor.rfind]
    by_cases hr : Extractor.rfind rest c ≥ 0
    · rw [if_pos hr]; omega
    · rw [if_neg hr]
      by_cases hac : a = c
      · rw [if_pos hac]; omega
      · rw [if_neg hac]

/-- `rfind` misses exactly when the character is absent. -/
theorem rfind_ne_neg_one_iff (cs : List Char) (c : Char) :
    Extractor.rfind cs c ≠ -1 ↔ c ∈ cs := by
  induction cs with
  | nil => simp [Extractor.rfind]
  | cons a rest ih =>
    rw [Extractor.rfind]
    by_cases hr : Extractor.rfind rest c ≥ 0
    · have hmem : c ∈ rest := ih.mp (by omega)
      rw [if_pos hr]
      simp only [List.mem_cons, hmem, or_true, iff_true]
      omega
    · rw [if_neg hr]
      have hrm1 : Extractor.rfind rest c = -1 := by
        have := rfind_ge_neg_one rest c
        omega
      have hnmem : c ∉ rest := fun hmem => (ih.mpr hmem) hrm1
      by_cases hac : a = c
      · rw [if_pos hac]
        simp [hac]
      · rw [if_neg hac]
        simp only [ne_eq, not_true_eq_false, List.mem_cons, false_iff, not_or]
        exact ⟨fun hca => hac hca.symm, hnmem⟩

set_option maxRecDepth 40000 in
/-- C1: when the cleaned numeric token contains both `,` and `.`, the
one occurring later is taken as the decimal separator and the other is
removed as the thousands separator; in particular `parse("$1,234.56")`
and `parse("€1.234,56")` both give amount_value `1234.56` with their
currency symbols. -/
theorem c1_later_separator_wins (t : String)
    (hc : ',' ∈ Extractor.cleanAmount t) (hd : '.' ∈ Extractor.cleanAmount t) :
    (Extractor.toFloat t =
      if Extractor.rfind (Extractor.cleanAmount t) ',' >
          Extractor.rfind (Extractor.cleanAmount t) '.' then
        pyFloat (String.mk (((Extractor.cleanAmount t).filter (fun c => c ≠ '.')).map
          (fun c => if c = ',' then '.' else c)))
      else
        pyFloat (String.mk ((Extractor.cleanAmount t).filter (fun c => c ≠ ',')))) ∧
    Extractor.splitPriceComponents (some "$1,234.56") =
      (some "$", some "1,234.56", some (1234.56 : Rat)) ∧
    Extractor.splitPriceComponents (some "€1.234,56") =
      (some "€", some "1.234,56", some (1234.56 : Rat)) := by
  refine ⟨?_, by decide, by decide⟩
  have hne : pyStrip (String.mk (t.data.filter (fun c => c ≠ Char.ofNat 160))) ≠ "" := by
    intro h0
    have hnil : Extractor.cleanAmount t = [] := by
      unfold Extractor.cleanAmount
      rw [h0]
      rfl
    rw [hnil] at hc
    exact absurd hc (List.not_mem_nil _)
  rw [Extractor.toFloat, if_neg hne]
  have hlc : Extractor.rfind (Extractor.cleanAmount t) ',' ≠ -1 :=
    (rfind_ne_neg_one_iff _ _).mpr hc
  have hld : Extractor.rfind (Extractor.cleanAmount t) '.' ≠ -1 :=
    (rfind_ne_neg_one_iff _ _).mpr hd
  simp only [Extractor.sepRoles]
  rw [if_pos (⟨hlc, hld⟩ : _ ∧ _)]
  by_cases hgt : Extractor.rfind (Extractor.cleanAmount t) ',' >
      Extractor.rfind (Extractor.cleanAmount t) '.'
  · rw [if_pos hgt, if_pos hgt]
    simp [Extractor.applySeps]
  · rw [if_neg hgt, if_neg hgt]
    simp [Extractor.applySeps]

set_option maxRecDepth 40000 in
/-- C1 witness: on the numeric token `1.234,56` the comma occurs later,
so it becomes the decimal separator and the dots are stripped. -/
theorem c1_witness :
    (',' ∈ Extractor.cleanAmount "1.234,56") ∧ ('.' ∈ Extractor.cleanAmount "1.234,56") ∧
    ((Extractor.toFloat "1.234,56" =
      if Extractor.rfind (Extractor.cleanAmount "1.234,56") ',' >
          Extractor.rfind (Extractor.cleanAmount "1.234,56") '.' then
        pyFloat (String.mk (((Extractor.cleanAmount "1.234,56").filter (fun c => c ≠ '.')).map
          (fun c => if c = ',' then '.' else c)))
      else
        pyFloat (String.mk ((Extractor.cleanAmount "1.234,56").filter (fun c => c ≠ ',')))) ∧
    Extractor.splitPriceComponents (some "$1,234.56") =
      (some "$", some "1,234.56", some (1234.56 : Rat)) ∧
    Extractor.splitPriceComponents (some "€1.234,56") =
      (some "€", some "1.234,56", some (1234.56 : Rat))) :=
  ⟨by decide, by decide, c1_later_separator_wins "1.234,56" (by decide) (by decide)⟩

theorem objGet_map_replace (k0 : String) (v : JVal) (k : String) (h : k ≠ k0) :
    ∀ kvs : List (String × JVal),
      Option.map (fun p => p.2)
        (List.find? (fun p => p.1 = k) (kvs.map (fun p => if p.1 = k0 then (k0, v) else p))) =
      Option.map (fun p => p.2) (List.find? (fun p => p.1 = k) kvs) := by
  intro kvs
  induction kvs with
  | nil => rfl
  | cons p rest ih =>
    rw [List.map_cons]
    by_cases hp : p.1 = k0
    · rw [if_pos hp]
      rw [List.find?_cons_of_neg _
            (by simp only [decide_eq_true_eq]; exact fun hc => h hc.symm),
          List.find?_cons_of_neg _
            (by rw [hp]; simp only [decide_eq_true_eq]; exact fun hc => h hc.symm)]
      exact ih
    · rw [if_neg hp]
      by_cases hpk : p.1 = k
      · rw [List.find?_cons_of_pos _ (by simp [hpk]), List.find?_cons_of_pos _ (by simp [hpk])]
      · rw [List.find?_cons_of_neg _ (by simp [hpk]), List.find?_cons_of_neg _ (by simp [hpk])]
        exact ih

/-- Looking up any other key is unaffected by a dict assignment. -/
theorem objGet_dictSet_ne (kvs : List (String × JVal)) (k0 : String) (v : JVal)
    (k : String) (h : k ≠ k0) :
    objGet (dictSet kvs k0 v) k = objGet kvs k := by
  unfold dictSet
  by_cases hany : kvs.any (fun p => p.1 = k0)
  · rw [if_pos hany]
    exact objGet_map_replace k0 v k h kvs
  · rw [if_neg hany]
    unfold objGet
    rw [List.find?_append]
    have hlast : List.find? (fun p => p.1 = k) [(k0, v)] = none := by
      simp only [List.find?_singleton, decide_eq_true_eq]
      rw [if_neg (fun hc : k0 = k => h hc.symm)]
    cases hfind : kvs.find? (fun p => p.1 = k) with
    | none => simp [hfind, hlast]
    | some r => simp [hfind]

/-- The inner room loop relates input and output rooms by `RoomUpd`. -/
theorem updateRoomsJ_forall2 (samples : Nat → List String)
    (hs : ∀ n, sampleOk (samples n)) :
    ∀ (rooms : List JVal) (k : Nat) (rooms2 : List JVal) (k2 : Nat),
      updateRoomsJ samples k rooms = .ok (rooms2, k2) →
      List.Forall₂ RoomUpd rooms rooms2 := by
  intro rooms
  induction rooms with
  | nil =>
    intro k rooms2 k2 h
    rw [updateRoomsJ] at h
    obtain ⟨h1, _⟩ := Prod.mk.injEq .. ▸ Except.ok.inj h
    rw [← h1]
    exact List.Forall₂.nil
  | cons room rest ih =>
    intro k rooms2 k2 h
    cases room with
    | jobj kvs =>
      rw [updateRoomsJ] at h
      by_cases hk : serviceKeep kvs = true
      · rw [if_pos hk] at h
        cases hrec : updateRoomsJ samples k rest with
        | error e => rw [hrec] at h; exact Except.noConfusion h
        | ok pr =>
          obtain ⟨rs, k3⟩ := pr
          rw [hrec] at h
          obtain ⟨h1, _⟩ := Prod.mk.injEq .. ▸ Except.ok.inj h
          rw [← h1]
          exact List.Forall₂.cons ⟨kvs, rfl, Or.inl ⟨hk, rfl⟩⟩ (ih k rs k3 hrec)
      · rw [if_neg hk] at h
        cases hrec : updateRoomsJ samples (k + 1) rest with
        | error e => rw [hrec] at h; exact Except.noConfusion h
        | ok pr =>
          obtain ⟨rs, k3⟩ := pr
          rw [hrec] at h
          obtain ⟨h1, _⟩ := Prod.mk.injEq .. ▸ Except.ok.inj h
          rw [← h1]
          refine List.Forall₂.cons ⟨kvs, rfl, Or.inr ⟨Bool.eq_false_iff.mpr hk, samples k,
            hs k, rfl, fun key hkey => objGet_dictSet_ne kvs "service" _ key hkey⟩⟩
            (ih (k + 1) rs k3 hrec)
    | jnull => simp [updateRoomsJ] at h
    | jbool b => simp [updateRoomsJ] at h
    | jint n => simp [updateRoomsJ] at h
    | jfloat q => simp [updateRoomsJ] at h
    | jstr s => simp [updateRoomsJ] at h
    | jarr xs => simp [updateRoomsJ] at h

/-- The outer hotel loop relates input and output hotels by `HotelUpd`. -/
theorem updateHotelsJ_forall2 (samples : Nat → List String)
    (hs : ∀ n, sampleOk (samples n)) :
    ∀ (hotels : List JVal) (k : Nat) (hotels2 : List JVal) (k2 : Nat),
      updateHotelsJ samples k hotels = .ok (hotels2, k2) →
      List.Forall₂ HotelUpd hotels hotels2 := by
  intro hotels
  induction hotels with
  | nil =>
    intro k hotels2 k2 h
    rw [updateHotelsJ] at h
    obtain ⟨h1, _⟩ := Prod.mk.injEq .. ▸ Except.ok.inj h
    rw [← h1]
    exact List.Forall₂.nil
  | cons hotel rest ih =>
    intro k hotels2 k2 h
    cases hotel with
    | jobj hkvs =>
      rw [updateHotelsJ] at h
      cases hrm : objGet hkvs "rooms" with
      | some v =>
        cases v with
        | jarr rl =>
          rw [hrm] at h
          dsimp only at h
          cases hrooms : updateRoomsJ samples k rl with
          | error e => rw [hrooms] at h; exact Except.noConfusion h
          | ok pr =>
            obtain ⟨rl2, k3⟩ := pr
            rw [hrooms] at h
            dsimp only at h
            cases hrest : updateHotelsJ samples k3 rest with
            | error e => rw [hrest] at h; exact Except.noConfusion h
            | ok pr2 =>
              obtain ⟨hs2, k4⟩ := pr2
              rw [hrest] at h
              dsimp only at h
              obtain ⟨h1, _⟩ := Prod.mk.injEq .. ▸ Except.ok.inj h
              rw [← h1]
              refine List.Forall₂.cons ⟨hkvs, rfl, Or.inr ⟨rl, rl2, hrm,
                updateRoomsJ_forall2 samples hs rl k rl2 k3 hrooms, rfl,
                fun key hkey => objGet_dictSet_ne hkvs "rooms" _ key hkey⟩⟩
                (ih k3 hs2 k4 hrest)
        | jnull => ?_
        | jbool b => ?_
        | jint n => ?_
        | jfloat q => ?_
        | jstr s => ?_
        | jobj kvs2 => ?_
        all_goals {
          rw [hrm] at h
          cases hrest : updateHotelsJ samples k rest with
          | error e => rw [hrest] at h; exact Except.noConfusion h
          | ok pr2 =>
            obtain ⟨hs2, k4⟩ := pr2
            rw [hrest] at h
            obtain ⟨h1, _⟩ := Prod.mk.injEq .. ▸ Except.ok.inj h
            rw [← h1]
            refine List.Forall₂.cons ⟨hkvs, rfl, Or.inl ⟨?_, rfl⟩⟩ (ih k hs2 k4 hrest)
            intro rl hc
            rw [hrm] at hc
            exact JVal.noConfusion (Option.some.inj hc)
        }
      | none =>
        rw [hrm] at h
        cases hrest : updateHotelsJ samples k rest with
        | error e => rw [hrest] at h; exact Except.noConfusion h
        | ok pr2 =>
          obtain ⟨hs2, k4⟩ := pr2
          rw [hrest] at h
          obtain ⟨h1, _⟩ := Prod.mk.injEq .. ▸ Except.ok.inj h
          rw [← h1]
          refine List.Forall₂.cons ⟨hkvs, rfl, Or.inl ⟨?_, rfl⟩⟩ (ih k hs2 k4 hrest)
          intro rl hc
          rw [hrm] at hc
          exact Option.noConfusion hc
    | jnull => simp [updateHotelsJ] at h
    | jbool b => simp [updateHotelsJ] at h
    | jint n => simp [updateHotelsJ] at h
    | jfloat q => simp [updateHotelsJ] at h
    | jstr s => simp [updateHotelsJ] at h
    | jarr xs => simp [updateHotelsJ] at h

/-- C10: under the `randint`/`sample` contract, `add_room_services_to_data`
only rewrites the `service` value of rooms whose `service` is missing or
falsy, giving them 6 to 14 distinct entries drawn from
`DUMMY_ROOM_SERVICES`; every room with a present, truthy `service`
— in particular a non-empty service list — is returned unchanged, and
every other key of every room and hotel keeps its value. -/
theorem c10_services_frame (samples : Nat → List String) (data data2 : JVal)
    (hs : ∀ n, sampleOk (samples n))
    (hok : addRoomServicesToData samples data = .ok data2) :
    DataUpd data data2 := by
  cases data with
  | jobj kvs =>
    rw [addRoomServicesToData] at hok
    cases hh : objGet kvs "hotels" with
    | some v =>
      cases v with
      | jarr hotels =>
        rw [hh] at hok
        dsimp only at hok
        cases hupd : updateHotelsJ samples 0 hotels with
        | error e => rw [hupd] at hok; exact Except.noConfusion hok
        | ok pr =>
          obtain ⟨hotels2, k2⟩ := pr
          rw [hupd] at hok
          exact ⟨kvs, rfl, Or.inr ⟨hotels, hotels2, hh,
            updateHotelsJ_forall2 samples hs hotels 0 hotels2 k2 hupd,
            (Except.ok.inj hok).symm⟩⟩
      | jnull => ?_
      | jbool b => ?_
      | jint n => ?_
      | jfloat q => ?_
      | jstr s => ?_
      | jobj kvs2 => ?_
      all_goals {
        rw [hh] at hok
        refine ⟨kvs, rfl, Or.inl ⟨?_, (Except.ok.inj hok).symm⟩⟩
        intro hl hc
        rw [hh] at hc
        exact JVal.noConfusion (Option.some.inj hc)
      }
    | none =>
      rw [hh] at hok
      refine ⟨kvs, rfl, Or.inl ⟨?_, (Except.ok.inj hok).symm⟩⟩
      intro hl hc
      rw [hh] at hc
      exact Option.noConfusion hc
  | jnull => exact Except.noConfusion hok
  | jbool b => exact Except.noConfusion hok
  | jint n => exact Except.noConfusion hok
  | jfloat q => exact Except.noConfusion hok
  | jstr s => exact Except.noConfusion hok
  | jarr xs => exact Except.noConfusion hok

set_option maxRecDepth 40000 in
/-- Witness for `c10_services_frame`: on a concrete two-room data file the
oracle contract holds, the update succeeds, and the frame property follows
by the theorem itself. -/
theorem c10_witness :
    (∀ n, sampleOk (c10Samples n)) ∧
      addRoomServicesToData c10Samples c10Data = .ok c10Data2 ∧
      DataUpd c10Data c10Data2 :=
  ⟨fun _ => by
      show sampleOk (DUMMY_ROOM_SERVICES.take 6)
      exact ⟨by decide, by decide, by decide, by decide⟩,
    by rfl,
    c10_services_frame c10Samples c10Data c10Data2
      (fun _ => by
        show sampleOk (DUMMY_ROOM_SERVICES.take 6)
        exact ⟨by decide, by decide, by decide, by decide⟩) (by rfl)⟩

end Scrap

